import Mathlib

/-!
Verification of the String-Analyzer-API core: the string analysis engine
(`analyzeString`), the natural-language query translator
(`parseNaturalLanguageQuery`), the request validators and the store-facing
controller logic, shallowly embedded from the JavaScript sources
(`src/controllers/string.controllers.js`, `src/middlewares/validator.middlewares.js`,
`src/models/string.models.js`).

Strings are modelled as lists of Unicode scalar values (`List Char`).
Case folding uses `Char.toLower`, which maps the ASCII letters `A`-`Z` to
`a`-`z` and leaves every other code point unchanged; the JavaScript sources
only ever distinguish characters inside the ASCII range (the palindrome
cleaner keeps `[a-zA-Z0-9]` only and the translator patterns are ASCII), so
this is the mapping actually exercised by the code.
-/

abbrev Str := List Char

/-- Code points matched by the JavaScript regular-expression class `\s`
(also the set trimmed by `String.prototype.trim`): space, tab, LF, VT, FF,
CR, NBSP, Ogham space mark, the Zs range U+2000..U+200A, LS, PS, narrow
NBSP, medium mathematical space, ideographic space and the BOM. -/
def wsCode (n : Nat) : Bool :=
  n == 32 || n == 9 || n == 10 || n == 11 || n == 12 || n == 13 ||
  n == 160 || n == 5760 || (8192 ≤ n && n ≤ 8202) ||
  n == 8232 || n == 8233 || n == 8239 || n == 8287 || n == 12288 || n == 65279

/-- JavaScript whitespace test on characters. -/
def jsWhitespace (c : Char) : Bool := wsCode c.toNat

/-- `String.prototype.trim`: drop leading and trailing JavaScript whitespace. -/
def jsTrim (s : Str) : Str :=
  ((s.dropWhile jsWhitespace).reverse.dropWhile jsWhitespace).reverse

/-- Characters kept by `replace(/[^a-zA-Z0-9]/g, "")`. -/
def isAlnumAscii (c : Char) : Bool :=
  (65 ≤ c.toNat && c.toNat ≤ 90) || (97 ≤ c.toNat && c.toNat ≤ 122) ||
  (48 ≤ c.toNat && c.toNat ≤ 57)

/-- ASCII digit test, the regular-expression class `\d`. -/
def isDigitAscii (c : Char) : Bool := 48 ≤ c.toNat && c.toNat ≤ 57

/-- Number of tokens of `trimmed.split(/\s+/)` for an already-trimmed string:
the number of maximal runs of non-whitespace characters.  The boolean flag
records whether the scan is currently inside such a run. -/
def countRunsAux : Bool → Str → Nat
  | _, [] => 0
  | inWord, c :: rest =>
    if jsWhitespace c then countRunsAux false rest
    else if inWord then countRunsAux true rest
    else 1 + countRunsAux true rest

/-- Token count of `s.split(/\s+/)` for a string with no leading whitespace. -/
def splitWsCount (s : Str) : Nat := countRunsAux false s

/-- One step of `characterFrequency[char] = (characterFrequency[char] || 0) + 1`
on a JavaScript object modelled as an association list in insertion order. -/
def chFreqUpd : List (Char × Nat) → Char → List (Char × Nat)
  | [], c => [(c, 1)]
  | (k, v) :: rest, c =>
    if k = c then (k, v + 1) :: rest else (k, v) :: chFreqUpd rest c

/-- The `for (const char of ...)` loop of `analyzeString`: every character
other than the literal space character is tallied. -/
def charFreqAux : List (Char × Nat) → Str → List (Char × Nat)
  | m, [] => m
  | m, c :: rest => charFreqAux (if c = ' ' then m else chFreqUpd m c) rest

def charFreqMap (s : Str) : List (Char × Nat) := charFreqAux [] s

/-! ### SHA-256 (`crypto.createHash("sha256").update(str).digest("hex")`)

Words are naturals kept below `2 ^ 32` by explicit reduction. -/

def M32 : Nat := 4294967296

def not32 (x : Nat) : Nat := 4294967295 - x

def rotr32 (k x : Nat) : Nat := x / 2 ^ k + x % 2 ^ k * 2 ^ (32 - k)

def shr32 (k x : Nat) : Nat := x / 2 ^ k

def bigS0 (x : Nat) : Nat := rotr32 2 x ^^^ rotr32 13 x ^^^ rotr32 22 x

def bigS1 (x : Nat) : Nat := rotr32 6 x ^^^ rotr32 11 x ^^^ rotr32 25 x

def smallS0 (x : Nat) : Nat := rotr32 7 x ^^^ rotr32 18 x ^^^ shr32 3 x

def smallS1 (x : Nat) : Nat := rotr32 17 x ^^^ rotr32 19 x ^^^ shr32 10 x

def shaCh (e f g : Nat) : Nat := (e &&& f) ^^^ (not32 e &&& g)

def shaMaj (a b c : Nat) : Nat := (a &&& b) ^^^ (a &&& c) ^^^ (b &&& c)

def shaK : List Nat :=
  [1116352408, 1899447441, 3049323471, 3921009573,
   961987163, 1508970993, 2453635748, 2870763221,
   3624381080, 310598401, 607225278, 1426881987,
   1925078388, 2162078206, 2614888103, 3248222580,
   3835390401, 4022224774, 264347078, 604807628,
   770255983, 1249150122, 1555081692, 1996064986,
   2554220882, 2821834349, 2952996808, 3210313671,
   3336571891, 3584528711, 113926993, 338241895,
   666307205, 773529912, 1294757372, 1396182291,
   1695183700, 1986661051, 2177026350, 2456956037,
   2730485921, 2820302411, 3259730800, 3345764771,
   3516065817, 3600352804, 4094571909, 275423344,
   430227734, 506948616, 659060556, 883997877,
   958139571, 1322822218, 1537002063, 1747873779,
   1955562222, 2024104815, 2227730452, 2361852424,
   2428436474, 2756734187, 3204031479, 3329325298]

structure Sha8 where
  a : Nat
  b : Nat
  c : Nat
  d : Nat
  e : Nat
  f : Nat
  g : Nat
  h : Nat

def shaInit : Sha8 :=
  ⟨1779033703, 3144134277, 1013904242, 2773480762,
   1359893119, 2600822924, 528734635, 1541459225⟩

def iterN (f : α → α) : Nat → α → α
  | 0, x => x
  | k + 1, x => iterN f k (f x)

/-- Append the next word of the SHA-256 message schedule. -/
def shaExtendStep (w : List Nat) : List Nat :=
  let n := w.length
  let g := fun (i : Nat) => w.getD (n - i) 0
  w ++ [(smallS1 (g 2) + g 7 + smallS0 (g 15) + g 16) % M32]

def shaSchedule (ws : List Nat) : List Nat := iterN shaExtendStep 48 ws

def shaRound (st : Sha8) (kw : Nat × Nat) : Sha8 :=
  let t1 := (st.h + bigS1 st.e + shaCh st.e st.f st.g + kw.1 + kw.2) % M32
  let t2 := (bigS0 st.a + shaMaj st.a st.b st.c) % M32
  ⟨(t1 + t2) % M32, st.a, st.b, st.c, (st.d + t1) % M32, st.e, st.f, st.g⟩

def shaCompress (h0 : Sha8) (block : List Nat) : Sha8 :=
  let s := (shaK.zip (shaSchedule block)).foldl shaRound h0
  ⟨(h0.a + s.a) % M32, (h0.b + s.b) % M32, (h0.c + s.c) % M32,
   (h0.d + s.d) % M32, (h0.e + s.e) % M32, (h0.f + s.f) % M32,
   (h0.g + s.g) % M32, (h0.h + s.h) % M32⟩

def bytesToWords : List Nat → List Nat
  | b0 :: b1 :: b2 :: b3 :: rest =>
    (((b0 * 256 + b1) * 256 + b2) * 256 + b3) :: bytesToWords rest
  | _ => []

def be64 (n : Nat) : List Nat :=
  [n / 2 ^ 56 % 256, n / 2 ^ 48 % 256, n / 2 ^ 40 % 256, n / 2 ^ 32 % 256,
   n / 2 ^ 24 % 256, n / 2 ^ 16 % 256, n / 2 ^ 8 % 256, n % 256]

/-- Standard SHA-256 padding: `0x80`, zeros to 56 mod 64, 8-byte bit length. -/
def shaPad (msg : List Nat) : List Nat :=
  msg ++ 128 :: (List.replicate ((119 - msg.length % 64) % 64) 0 ++ be64 (8 * msg.length))

def shaBlocks (h0 : Sha8) (l : List Nat) : Sha8 :=
  match l with
  | [] => h0
  | b :: rest =>
    shaBlocks (shaCompress h0 (bytesToWords (List.take 64 (b :: rest))))
      (List.drop 64 (b :: rest))
termination_by l.length
decreasing_by simp [List.length_drop]; omega

/-- UTF-8 encoding of one scalar value (Node hashes strings as UTF-8). -/
def utf8Bytes (c : Char) : List Nat :=
  let n := c.toNat
  if n < 128 then [n]
  else if n < 2048 then [192 + n / 64, 128 + n % 64]
  else if n < 65536 then [224 + n / 4096, 128 + n / 64 % 64, 128 + n % 64]
  else [240 + n / 262144, 128 + n / 4096 % 64, 128 + n / 64 % 64, 128 + n % 64]

def hexDigit (n : Nat) : Char :=
  if n < 10 then Char.ofNat (48 + n) else Char.ofNat (87 + n)

def wordHex (n : Nat) : List Char :=
  [hexDigit (n / 16 ^ 7 % 16), hexDigit (n / 16 ^ 6 % 16),
   hexDigit (n / 16 ^ 5 % 16), hexDigit (n / 16 ^ 4 % 16),
   hexDigit (n / 16 ^ 3 % 16), hexDigit (n / 16 ^ 2 % 16),
   hexDigit (n / 16 % 16), hexDigit (n % 16)]

/-- Hex digest of the SHA-256 hash of a string, UTF-8 encoded. -/
def sha256hex (s : Str) : Str :=
  let bytes := (s.map utf8Bytes).foldr (· ++ ·) []
  let st := shaBlocks shaInit (shaPad bytes)
  wordHex st.a ++ wordHex st.b ++ wordHex st.c ++ wordHex st.d ++
  wordHex st.e ++ wordHex st.f ++ wordHex st.g ++ wordHex st.h

/-! ### The analyzer (`analyzeString`, string.controllers.js lines 11-43) -/

structure AnalysisResult where
  length : Nat
  is_palindrome : Bool
  unique_characters : Nat
  word_count : Nat
  sha256_hash : Str
  character_frequency_map : List (Char × Nat)

/-- `analyzeString` from `string.controllers.js`:
trim, then compute length, palindrome flag over the cleaned string
(non-alphanumerics removed, lowercased), distinct-character count over the
lowercased string with all whitespace removed, whitespace-split word count,
SHA-256 content hash of the trimmed string, and the character frequency
table of the lowercased string excluding the literal space character. -/
def analyzeString (inputString : Str) : AnalysisResult :=
  let trimmedString := jsTrim inputString
  let cleanStr := (trimmedString.filter isAlnumAscii).map Char.toLower
  let length := trimmedString.length
  let isPalindrome := decide (0 < cleanStr.length) && (cleanStr == cleanStr.reverse)
  let uniqueCharacters :=
    (((trimmedString.map Char.toLower).filter (fun c => !(jsWhitespace c))).dedup).length
  let wordCount := if trimmedString.length == 0 then 0 else splitWsCount (jsTrim trimmedString)
  let sha256Hash := sha256hex trimmedString
  let characterFrequency := charFreqMap (trimmedString.map Char.toLower)
  ⟨length, isPalindrome, uniqueCharacters, wordCount, sha256Hash, characterFrequency⟩

/-! ### The translator (`parseNaturalLanguageQuery`, string.controllers.js lines 46-133)

Each regular expression of the source is embedded as a scanner that tries
every start position from the left, exactly as the JavaScript engine does;
greedy repetition (`\d+`, `\s+`) is maximal munch, which is equivalent here
because in every pattern the token after the repetition cannot match a
character of the repeated class. -/

def takeDigits (l : Str) : Str := l.takeWhile isDigitAscii

def firstSome : List (Option α) → Option α
  | [] => none
  | o :: rest => o <|> firstSome rest

/-- Substring containment (`String.prototype.match` with a literal pattern). -/
def containsSeq (pat : Str) : Str → Bool
  | [] => pat.isEmpty
  | c :: rest => pat.isPrefixOf (c :: rest) || containsSeq pat rest

/-- First match of a regex of shape `<literal key>(\d+)`: the captured digit
run after the first occurrence of `key` that is directly followed by at
least one digit. -/
def findKeyNum (key : Str) : Str → Option Str
  | [] => none
  | c :: rest =>
    (if key.isPrefixOf (c :: rest) then
       let ds := takeDigits ((c :: rest).drop key.length)
       if ds.isEmpty then none else some ds
     else none) <|> findKeyNum key rest

/-- First match of `/(\d+)\s+words?/`: a digit run, whitespace, then `word`. -/
def matchNumWords : Str → Option Str
  | [] => none
  | c :: rest =>
    (let l := c :: rest
     let ds := takeDigits l
     if ds.isEmpty then none
     else
       let afterD := l.drop ds.length
       let ws := afterD.takeWhile jsWhitespace
       if ws.isEmpty then none
       else if ("word".data).isPrefixOf (afterD.drop ws.length) then some ds
       else none) <|> matchNumWords rest

/-- First match of `/between (\d+) and (\d+)/` with both captures. -/
def matchBetween : Str → Option (Str × Str)
  | [] => none
  | c :: rest =>
    (let l := c :: rest
     if ("between ".data).isPrefixOf l then
       let a := l.drop 8
       let d1 := takeDigits a
       if d1.isEmpty then none
       else
         let b := a.drop d1.length
         if (" and ".data).isPrefixOf b then
           let e := b.drop 5
           let d2 := takeDigits e
           if d2.isEmpty then none else some (d1, d2)
         else none
     else none) <|> matchBetween rest

def isAlphaAscii (c : Char) : Bool :=
  (65 ≤ c.toNat && c.toNat ≤ 90) || (97 ≤ c.toNat && c.toNat ≤ 122)

def quoteChar (c : Char) : Bool := c == '\'' || c == '"'

/-- Alternatives of `(?:contains?|with|having|include|includes?)` in the
backtracking order the regex engine tries them. -/
def charVerbs : List Str :=
  [("contains".data), ("contain".data), ("with".data), ("having".data),
   ("include".data), ("includes".data)]

/-- Alternatives of `(?:letter|character|the letter|the character)`. -/
def charNouns : List Str :=
  [("letter".data), ("character".data), ("the letter".data), ("the character".data)]

/-- `['"]?([a-zA-Z])['"]?`: optional quote, then the captured letter. -/
def matchLetterTail (l : Str) : Option Char :=
  match l with
  | [] => none
  | q :: t =>
    if quoteChar q then
      match t with
      | c2 :: _ => if isAlphaAscii c2 then some c2 else none
      | [] => none
    else if isAlphaAscii q then some q else none

def matchNounAt (l : Str) : Option Char :=
  firstSome (charNouns.map (fun n =>
    if n.isPrefixOf l then
      let a := l.drop n.length
      let ws := a.takeWhile jsWhitespace
      if ws.isEmpty then none else matchLetterTail (a.drop ws.length)
    else none))

def matchCharVerbAt (l : Str) : Option Char :=
  firstSome (charVerbs.map (fun v =>
    if v.isPrefixOf l then
      let a := l.drop v.length
      let ws := a.takeWhile jsWhitespace
      if ws.isEmpty then none else matchNounAt (a.drop ws.length)
    else none))

/-- First capture of the character-containment regex
`/(?:contains?|with|having|include|includes?)\s+(?:letter|character|the letter|the character)\s+['"]?([a-zA-Z])['"]?/`. -/
def matchCharScan : Str → Option Char
  | [] => none
  | c :: rest => matchCharVerbAt (c :: rest) <|> matchCharScan rest

/-- `\s+(?:a\s+)?<target>` after a verb alternative. -/
def phraseTail (target : Str) (a : Str) : Bool :=
  let ws := a.takeWhile jsWhitespace
  if ws.isEmpty then false
  else
    let b := a.drop ws.length
    match b with
    | 'a' :: t =>
      let ws2 := t.takeWhile jsWhitespace
      (!ws2.isEmpty && target.isPrefixOf (t.drop ws2.length)) || target.isPrefixOf b
    | _ => target.isPrefixOf b

def matchPhraseAt (verbs : List Str) (target : Str) (l : Str) : Bool :=
  verbs.any (fun v => v.isPrefixOf l && phraseTail target (l.drop v.length))

/-- Scanner for the vowel/consonant heuristics, e.g.
`/contains?\s+(?:a\s+)?vowel|with\s+(?:a\s+)?vowel|having\s+(?:a\s+)?vowel/`. -/
def matchPhrase (verbs : List Str) (target : Str) : Str → Bool
  | [] => false
  | c :: rest => matchPhraseAt verbs target (c :: rest) || matchPhrase verbs target rest

def vowelVerbs : List Str :=
  [("contains".data), ("contain".data), ("with".data), ("having".data)]

def consVerbs : List Str := [("contains".data), ("contain".data), ("with".data)]

/-- The translator output: the `filters` object.  All values are strings,
exactly as in the JavaScript code. -/
structure FilterSet where
  is_palindrome : Option Str
  word_count : Option Str
  min_length : Option Str
  max_length : Option Str
  contains_character : Option Str
deriving DecidableEq

def emptyFilters : FilterSet := ⟨none, none, none, none, none⟩

/-- `Object.keys(filters).length === 0`. -/
def filtersIsEmpty (f : FilterSet) : Bool :=
  f.is_palindrome.isNone && f.word_count.isNone && f.min_length.isNone &&
  f.max_length.isNone && f.contains_character.isNone

/-- The exact mathematical integer denoted by a digit run (the intermediate
value of ECMA-262 `parseInt` before it is converted to a Number). -/
def digitsToNat (l : Str) : Nat := l.foldl (fun n c => n * 10 + (c.toNat - 48)) 0

def natPrintAux : Nat → Nat → List Char
  | 0, _ => []
  | fuel + 1, n =>
    if n < 10 then [Char.ofNat (48 + n % 10)]
    else natPrintAux fuel (n / 10) ++ [Char.ofNat (48 + n % 10)]

/-- Exact decimal numeral of a natural number. -/
def natPrint (n : Nat) : Str := natPrintAux (n + 1) n

/-! JavaScript numbers are IEEE-754 binary64 values, so the translator's
`parseInt(...)`, `+ 1` / `- 1` and `.toString()` round: integers at
`2^53 + 1` and beyond lose precision, values from `10^21` print in
exponential notation, and overflow gives `Infinity`.  The model below
represents the integer-valued doubles that occur in the translator exactly
and reproduces that rounding and printing behavior. -/

/-- A JavaScript number as produced by the translator's arithmetic: an
integer-valued binary64 (stored as its exact integer value) or positive
infinity. -/
inductive JsNum where
  | fin (i : Int)
  | inf

/-- Round a non-negative exact integer to the nearest IEEE-754 binary64
value, ties to even, `inf` on overflow.  Integers below `2^53` are all
representable.  A larger `v` has bit length `53 + e` for `e ≥ 1`; its
53-bit mantissa is `v / 2^e` rounded half-to-even on the remainder, with a
carry into the exponent when the mantissa reaches `2^53`; exponents beyond
971 exceed the largest finite double `(2^53 - 1) * 2^971`. -/
def roundNat (v : Nat) : JsNum :=
  if v < 9007199254740992 then .fin (v : Int)
  else
    let e := Nat.log2 v - 52
    let q := v / 2 ^ e
    let r := v % 2 ^ e
    let half := 2 ^ (e - 1)
    let m := if half < r || (r == half && q % 2 == 1) then q + 1 else q
    let me : Nat × Nat :=
      if m == 9007199254740992 then (4503599627370496, e + 1) else (m, e)
    if 971 < me.2 then .inf else .fin ((me.1 * 2 ^ me.2 : Nat) : Int)

/-- IEEE-754 `x + 1` on an integer-valued double: the exact sum rounded to
the nearest double.  (The negative branch is exact; on the translator's
paths the argument is never negative.) -/
def jsAdd1 : JsNum → JsNum
  | .inf => .inf
  | .fin i => if i + 1 < 0 then .fin (i + 1) else roundNat (i + 1).toNat

/-- IEEE-754 `x - 1` on an integer-valued double: the exact difference
rounded to the nearest double.  (The negative branch is exact for small
magnitudes; on the translator's paths the argument is a non-negative
integer, so the only negative result is `-1`.) -/
def jsSub1 : JsNum → JsNum
  | .inf => .inf
  | .fin i => if i - 1 < 0 then .fin (i - 1) else roundNat (i - 1).toNat

/-- ECMA-262 `parseInt` on a captured digit run: the mathematical integer
value of the digits converted to a Number, i.e. rounded to the nearest
binary64 (`Infinity` for runs beyond the double range). -/
def parseIntDigits (d : Str) : JsNum := roundNat (digitsToNat d)

/-- Candidates for the ECMA-262 `Number::toString` significand with `k`
significant digits at decimal shift `j`: the multiples of `10^j` nearest
the target `v` whose value lies in the rounding interval `(LO/4, HI/4)`
(endpoints included when the mantissa is even, matching round-half-even). -/
def candsAtJ (LO HI : Nat) (closed : Bool) (v k j : Nat) : List (Nat × Nat) :=
  let base := v / 10 ^ j
  ([base - 1, base, base + 1].filter (fun s =>
    10 ^ (k - 1) ≤ s && s < 10 ^ k &&
    (if closed then LO ≤ 4 * s * 10 ^ j && 4 * s * 10 ^ j ≤ HI
     else LO < 4 * s * 10 ^ j && 4 * s * 10 ^ j < HI))).map (fun s => (s, j))

/-- All `k`-significant-digit candidates: a decimal in the rounding
interval has the digit count of `v` or one more or one fewer. -/
def candsForK (LO HI : Nat) (closed : Bool) (v dc k : Nat) : List (Nat × Nat) :=
  candsAtJ LO HI closed v k (dc - 1 - k) ++
    candsAtJ LO HI closed v k (dc - k) ++ candsAtJ LO HI closed v k (dc + 1 - k)

/-- Among candidates pick the one closest in value to `v`, ties toward an
even significand, as ECMA-262 `Number::toString` specifies. -/
def bestCand (v : Nat) : List (Nat × Nat) → Option (Nat × Nat)
  | [] => none
  | c :: rest =>
    match bestCand v rest with
    | none => some c
    | some b =>
      let dcv := Nat.dist (c.1 * 10 ^ c.2) v
      let dbv := Nat.dist (b.1 * 10 ^ b.2) v
      if dcv < dbv then some c
      else if dbv < dcv then some b
      else if c.1 % 2 == 0 then some c else some b

/-- The ECMA-262 `Number::toString` decimal `s * 10^j` for a representable
integer `v ≥ 2^53`: the fewest significant digits `s` (searched in
ascending count) such that the decimal rounds back to `v`, ties resolved
toward `v` and then toward even `s`.  The rounding interval of
`v = m * 2^e` is `(v - gapDown/2, v + gapUp/2)` where the gap to the
neighbor below halves when `m = 2^52`; scaling by 4 keeps all endpoints
integral.  Seventeen significant digits always round-trip a binary64, so
the fallback is unreachable. -/
def shortestDec (v : Nat) : Nat × Nat :=
  let e := Nat.log2 v - 52
  let m := v / 2 ^ e
  let gapUp := 2 ^ e
  let gapDown := if m == 4503599627370496 then 2 ^ (e - 1) else 2 ^ e
  let lo := 4 * v - 2 * gapDown
  let hi := 4 * v + 2 * gapUp
  let closed := m % 2 == 0
  let dc := Nat.log 10 v + 1
  (firstSome ((List.range 17).map (fun i =>
    bestCand v (candsForK lo hi closed v dc (i + 1))))).getD (v, 0)

/-- ECMA-262 `Number::toString` on a non-negative integer double.  Below
`2^53` the shortest decimal that rounds to an exactly-representable
integer is the integer itself, so the output is its exact numeral.  Larger
values print the shortest round-tripping decimal `s * 10^j`: in positional
notation (significand digits followed by zeros) while below `10^21`, and
in exponential notation `d.ddd…e+NN` from `10^21` on. -/
def jsNatToString (v : Nat) : Str :=
  if v < 9007199254740992 then natPrint v
  else
    let sd := shortestDec v
    let dval := sd.1 * 10 ^ sd.2
    if dval < 10 ^ 21 then natPrint dval
    else
      let ds := natPrint sd.1
      let n := Nat.log 10 dval + 1
      (match ds with
       | [c] => [c]
       | c :: rest => c :: '.' :: rest
       | [] => ds) ++ 'e' :: '+' :: natPrint (n - 1)

/-- `Number.prototype.toString`: negative values print a minus sign before
the string of their magnitude; infinity prints `"Infinity"`. -/
def jsNumToString : JsNum → Str
  | .inf => ("Infinity".data)
  | .fin i => if i < 0 then '-' :: jsNatToString i.natAbs else jsNatToString i.natAbs

def rulePalindrome (q : Str) (f : FilterSet) : FilterSet :=
  if containsSeq ("palindrome".data) q || containsSeq ("palindromic".data) q then
    { f with is_palindrome := some ("true".data) }
  else f

def ruleWords1 (q : Str) (f : FilterSet) : FilterSet :=
  if containsSeq ("single word".data) q || containsSeq ("one word".data) q ||
      containsSeq ("1 word".data) q then
    { f with word_count := some ("1".data) }
  else f

def ruleWords2 (q : Str) (f : FilterSet) : FilterSet :=
  if containsSeq ("two words".data) q || containsSeq ("2 words".data) q then
    { f with word_count := some ("2".data) }
  else f

def ruleWords3 (q : Str) (f : FilterSet) : FilterSet :=
  if containsSeq ("three words".data) q || containsSeq ("3 words".data) q then
    { f with word_count := some ("3".data) }
  else f

def ruleNumWords (q : Str) (f : FilterSet) : FilterSet :=
  match matchNumWords q with
  | some d => { f with word_count := some d }
  | none => f

def ruleLonger (q : Str) (f : FilterSet) : FilterSet :=
  match findKeyNum ("longer than ".data) q with
  | some d => { f with min_length := some (jsNumToString (jsAdd1 (parseIntDigits d))) }
  | none => f

def ruleShorter (q : Str) (f : FilterSet) : FilterSet :=
  match findKeyNum ("shorter than ".data) q with
  | some d => { f with max_length := some (jsNumToString (jsSub1 (parseIntDigits d))) }
  | none => f

def ruleAtLeast (q : Str) (f : FilterSet) : FilterSet :=
  match findKeyNum ("at least ".data) q with
  | some d => { f with min_length := some d }
  | none => f

def ruleAtMost (q : Str) (f : FilterSet) : FilterSet :=
  match findKeyNum ("at most ".data) q with
  | some d => { f with max_length := some d }
  | none => f

def ruleMoreThan (q : Str) (f : FilterSet) : FilterSet :=
  match findKeyNum ("more than ".data) q with
  | some d => { f with min_length := some (jsNumToString (jsAdd1 (parseIntDigits d))) }
  | none => f

def ruleLessThan (q : Str) (f : FilterSet) : FilterSet :=
  match findKeyNum ("less than ".data) q with
  | some d => { f with max_length := some (jsNumToString (jsSub1 (parseIntDigits d))) }
  | none => f

def ruleBetween (q : Str) (f : FilterSet) : FilterSet :=
  match matchBetween q with
  | some p => { f with min_length := some p.1, max_length := some p.2 }
  | none => f

def ruleCharMatch (q : Str) (f : FilterSet) : FilterSet :=
  match matchCharScan q with
  | some c => { f with contains_character := some [Char.toLower c] }
  | none => f

def ruleVowel (q : Str) (f : FilterSet) : FilterSet :=
  if matchPhrase vowelVerbs ("vowel".data) q then
    { f with contains_character := some ("a".data) }
  else f

def ruleConsonant (q : Str) (f : FilterSet) : FilterSet :=
  if matchPhrase consVerbs ("consonant".data) q then
    { f with contains_character := some ("b".data) }
  else f

/-- `parseNaturalLanguageQuery` from `string.controllers.js`: the ordered
rule pipeline over the lowercased query, later rules overwriting earlier
assignments to the same key. -/
def parseNaturalLanguageQuery (query : Str) : FilterSet :=
  let lowerQuery := query.map Char.toLower
  let f1 := rulePalindrome lowerQuery emptyFilters
  let f2 := ruleWords1 lowerQuery f1
  let f3 := ruleWords2 lowerQuery f2
  let f4 := ruleWords3 lowerQuery f3
  let f5 := ruleNumWords lowerQuery f4
  let f6 := ruleLonger lowerQuery f5
  let f7 := ruleShorter lowerQuery f6
  let f8 := ruleAtLeast lowerQuery f7
  let f9 := ruleAtMost lowerQuery f8
  let f10 := ruleMoreThan lowerQuery f9
  let f11 := ruleLessThan lowerQuery f10
  let f12 := ruleBetween lowerQuery f11
  let f13 := ruleCharMatch lowerQuery f12
  let f14 := ruleVowel lowerQuery f13
  let f15 := ruleConsonant lowerQuery f14
  f15

/-! ### Validators, store interface and controllers

The store (`string.models.js`, MySQL-backed) is modelled as the list of
inserted records in insertion order; `existsByValue` hashes the value and
looks the id up, and `create` appends, exactly like the `INSERT`/`SELECT 1`
statements do under the primary-key discipline of the schema. -/

inductive ErrKind where
  | validation
  | conflict
  | notFound
deriving DecidableEq

/-- A request-body `value`: absent, `null`, some non-string JSON value, or a
string. -/
inductive ReqValue where
  | missing
  | nullv
  | nonString
  | str (s : Str)

/-- `validateStringInput` from `validator.middlewares.js`: reject missing or
`null`, non-strings, strings that are empty after trim, and raw strings
longer than 10000 characters (the length check is on the untrimmed value). -/
def validateStringInput : ReqValue → Except ErrKind Unit
  | .missing => .error .validation
  | .nullv => .error .validation
  | .nonString => .error .validation
  | .str s =>
    if (jsTrim s).length = 0 then .error .validation
    else if s.length > 10000 then .error .validation
    else .ok ()

structure StringRecord where
  id : Str
  value : Str
  length : Nat
  is_palindrome : Bool
  unique_characters : Nat
  word_count : Nat
  character_frequency_map : List (Char × Nat)

/-- `existsByValue` of `string.models.js`: hash the value, test whether a
row with that id exists. -/
def existsByValue (store : List StringRecord) (value : Str) : Bool :=
  store.any (fun r => r.id == sha256hex value)

/-- The `createString` controller (string.controllers.js lines 136-167):
reject falsy or non-string values, trim, fail with a conflict if a record
for the content hash already exists, otherwise analyze and insert.  Returns
the response (or error) together with the resulting store. -/
def createStringCtrl (store : List StringRecord) (v : ReqValue) :
    Except ErrKind StringRecord × List StringRecord :=
  match v with
  | .str s =>
    if s.isEmpty then (.error .validation, store)
    else
      let trimmedValue := jsTrim s
      if existsByValue store trimmedValue then (.error .conflict, store)
      else
        let properties := analyzeString trimmedValue
        let record : StringRecord :=
          ⟨properties.sha256_hash, trimmedValue, properties.length,
           properties.is_palindrome, properties.unique_characters,
           properties.word_count, properties.character_frequency_map⟩
        (.ok record, store ++ [record])
  | _ => (.error .validation, store)

/-- The POST /strings route: `validateStringInput` middleware, then the
`createString` controller. -/
def createStringEndpoint (store : List StringRecord) (v : ReqValue) :
    Except ErrKind StringRecord × List StringRecord :=
  match validateStringInput v with
  | .error e => (.error e, store)
  | .ok _ => createStringCtrl store v

/-- `jsParseInt` on the stored filter values: optional minus sign, digits. -/
def jsParseInt (s : Str) : Int :=
  match s with
  | '-' :: rest => -(digitsToNat rest : Int)
  | _ => (digitsToNat s : Int)

/-- The WHERE clause built by `findAllStrings` in `string.models.js`,
applied to one record (ordering by creation time is not modelled). -/
def recMatches (f : FilterSet) (r : StringRecord) : Bool :=
  (match f.is_palindrome with
   | none => true
   | some v => r.is_palindrome == (v == ("true".data))) &&
  (match f.min_length with
   | none => true
   | some v => jsParseInt v ≤ (r.length : Int)) &&
  (match f.max_length with
   | none => true
   | some v => (r.length : Int) ≤ jsParseInt v) &&
  (match f.word_count with
   | none => true
   | some v => (r.word_count : Int) == jsParseInt v) &&
  (match f.contains_character with
   | none => true
   | some v =>
     match v.map Char.toLower with
     | c :: _ => (r.character_frequency_map.lookup c).isSome
     | [] => true)

def findAllStrings (store : List StringRecord) (f : FilterSet) : List StringRecord :=
  store.filter (recMatches f)

/-- The GET /strings/filter-by-natural-language controller
(string.controllers.js lines 210-227): missing or empty query is a
validation error, an empty parsed filter set is a validation error, and
only otherwise is the store queried. -/
def filterByNaturalLanguage (store : List StringRecord) (queryParam : Option Str) :
    Except ErrKind (List StringRecord × FilterSet) :=
  match queryParam with
  | none => .error .validation
  | some q =>
    if q.isEmpty then .error .validation
    else
      let filters := parseNaturalLanguageQuery q
      if filtersIsEmpty filters then .error .validation
      else .ok (findAllStrings store filters, filters)

/-! ### Auxiliary definitions used by the claim statements -/

/-- A non-empty all-digit string: the decimal numeral of a non-negative
integer. -/
def isDigitStr (l : Str) : Bool := !l.isEmpty && l.all isDigitAscii

/-- The possible string forms of a non-negative JavaScript number: a plain
digit string, an exponential-notation numeral (it contains the exponent
marker), or `"Infinity"`. -/
def jsNumStr (l : Str) : Bool :=
  isDigitStr l || l.any (fun c => c == 'e') || l == ("Infinity".data)

/-- The invariant of C5 on length filter values: `min_length` is the string
of a non-negative number; `max_length` is that or exactly `"-1"`. -/
def goodLen (f : FilterSet) : Prop :=
  (∀ v, f.min_length = some v → jsNumStr v = true) ∧
  (∀ v, f.max_length = some v → (jsNumStr v = true ∨ v = ("-1".data)))

/-- A string of raw length 10001 whose trimmed length is 1. -/
def cexLong : Str := 'a' :: List.replicate 10000 ' '

/-- A store record for the already-analyzed string `"madam"`. -/
def madamRecord : StringRecord :=
  ⟨sha256hex ("madam".data), "madam".data, 5, true, 3, 1,
   [('m', 2), ('a', 2), ('d', 1)]⟩

/-- Store well-formedness: record ids are pairwise distinct and each id is
the content hash of the record value. -/
def WFStore (store : List StringRecord) : Prop :=
  (store.map (fun r => r.id)).Nodup ∧ ∀ r ∈ store, r.id = sha256hex r.value

/-! ### Concrete sanity checks of the embedding -/

example : (analyzeString ("madam".data)).word_count = 1 := by decide

example : (analyzeString ("A man, a plan, a canal: Panama".data)).is_palindrome = true := by
  decide

example : (analyzeString ("  a   b  ".data)).word_count = 2 := by decide

example : (analyzeString ("madam".data)).unique_characters = 3 := by decide

example : (analyzeString ("a a".data)).character_frequency_map = [('a', 2)] := by decide

example : parseNaturalLanguageQuery ("banana".data) = emptyFilters := by decide

example :
    parseNaturalLanguageQuery ("single word, 3 words".data) =
      ⟨none, some ("3".data), none, none, none⟩ := by decide

example :
    (parseNaturalLanguageQuery ("more than 5 and at least 7".data)).min_length =
      some ("6".data) := by decide

example :
    parseNaturalLanguageQuery ("between 5 and 10".data) =
      ⟨none, none, some ("5".data), some ("10".data), none⟩ := by decide

example :
    parseNaturalLanguageQuery ("palindrome with letter a".data) =
      ⟨some ("true".data), none, none, none, some ("a".data)⟩ := by decide

example :
    (parseNaturalLanguageQuery ("shorter than 0".data)).max_length =
      some ("-1".data) := by decide

/-! ### Trim lemmas -/

theorem dropWhile_idem (p : Char → Bool) (l : Str) :
    (l.dropWhile p).dropWhile p = l.dropWhile p := by
  induction l with
  | nil => rfl
  | cons a t ih =>
    by_cases h : p a
    · simp [List.dropWhile_cons, h, ih]
    · simp [List.dropWhile_cons, h]

theorem dropWhile_head_false {p : Char → Bool} {b : Char} {t : Str}
    (h : (b :: t).dropWhile p = b :: t) : p b = false := by
  by_contra hb
  rw [Bool.not_eq_false] at hb
  rw [List.dropWhile_cons, if_pos hb] at h
  have h2 := (List.dropWhile_suffix (l := t) p).length_le
  rw [h] at h2
  simp at h2

/-- `trim` is idempotent: a trimmed string has no leading and no trailing
whitespace left. -/
theorem jsTrim_idem (s : Str) : jsTrim (jsTrim s) = jsTrim s := by
  unfold jsTrim
  have hA : (s.dropWhile jsWhitespace).dropWhile jsWhitespace
      = s.dropWhile jsWhitespace := dropWhile_idem _ _
  have hdropB :
      ((s.dropWhile jsWhitespace).reverse.dropWhile jsWhitespace).reverse.dropWhile jsWhitespace
        = ((s.dropWhile jsWhitespace).reverse.dropWhile jsWhitespace).reverse := by
    cases hB : ((s.dropWhile jsWhitespace).reverse.dropWhile jsWhitespace).reverse with
    | nil => simp
    | cons b B2 =>
      have hsuf : (s.dropWhile jsWhitespace).reverse.dropWhile jsWhitespace
          <:+ (s.dropWhile jsWhitespace).reverse := List.dropWhile_suffix _
      have hpre : ((s.dropWhile jsWhitespace).reverse.dropWhile jsWhitespace).reverse
          <+: s.dropWhile jsWhitespace := by
        have h2 := List.reverse_prefix.mpr hsuf
        rwa [List.reverse_reverse] at h2
      rw [hB] at hpre
      obtain ⟨tl, htl⟩ := hpre
      rw [← htl, List.cons_append] at hA
      have hb : jsWhitespace b = false := dropWhile_head_false hA
      simp [List.dropWhile_cons, hb]
  rw [hdropB, List.reverse_reverse, dropWhile_idem]

/-! ### Frequency-map lemmas -/

theorem lookup_chFreqUpd_self (m : List (Char × Nat)) (c : Char) :
    (chFreqUpd m c).lookup c = some ((m.lookup c).getD 0 + 1) := by
  induction m with
  | nil => simp [chFreqUpd, List.lookup]
  | cons kv t ih =>
    obtain ⟨k, v⟩ := kv
    by_cases h : k = c
    · subst h
      simp [chFreqUpd, List.lookup]
    · have hck : (c == k) = false := beq_false_of_ne (Ne.symm h)
      simp [chFreqUpd, h, List.lookup, hck, ih]

theorem lookup_chFreqUpd_ne (m : List (Char × Nat)) (c d : Char) (hd : d ≠ c) :
    (chFreqUpd m c).lookup d = m.lookup d := by
  induction m with
  | nil => simp [chFreqUpd, List.lookup, beq_false_of_ne hd]
  | cons kv t ih =>
    obtain ⟨k, v⟩ := kv
    by_cases h : k = c
    · subst h
      simp [chFreqUpd, List.lookup, beq_false_of_ne hd]
    · simp [chFreqUpd, h, List.lookup, ih]

theorem charFreqAux_lookup (L : Str) : ∀ (m : List (Char × Nat)) (c : Char), c ≠ ' ' →
    (charFreqAux m L).lookup c =
      if c ∈ L then some ((m.lookup c).getD 0 + L.count c) else m.lookup c := by
  induction L with
  | nil => intro m c _; simp [charFreqAux]
  | cons x xs ih =>
    intro m c hc
    by_cases hx : x = ' '
    · subst hx
      rw [show charFreqAux m (' ' :: xs) = charFreqAux m xs from by simp [charFreqAux]]
      rw [ih m c hc]
      simp [List.count_cons, Ne.symm hc, hc]
    · by_cases hxc : x = c
      · subst hxc
        rw [show charFreqAux m (x :: xs) = charFreqAux (chFreqUpd m x) xs from by
          simp [charFreqAux, hx]]
        rw [ih (chFreqUpd m x) x hc]
        by_cases hmem : x ∈ xs
        · simp [hmem, List.count_cons, lookup_chFreqUpd_self]
          omega
        · simp [hmem, List.count_cons, lookup_chFreqUpd_self,
            List.count_eq_zero_of_not_mem hmem]
      · rw [show charFreqAux m (x :: xs) = charFreqAux (chFreqUpd m x) xs from by
          simp [charFreqAux, hx]]
        rw [ih (chFreqUpd m x) c hc, lookup_chFreqUpd_ne m x c (Ne.symm hxc)]
        simp [List.count_cons, hxc, Ne.symm hxc]

theorem charFreqAux_lookup_space (L : Str) : ∀ m : List (Char × Nat),
    (charFreqAux m L).lookup ' ' = m.lookup ' ' := by
  induction L with
  | nil => intro m; rfl
  | cons x xs ih =>
    intro m
    by_cases hx : x = ' '
    · subst hx
      rw [show charFreqAux m (' ' :: xs) = charFreqAux m xs from by simp [charFreqAux]]
      exact ih m
    · rw [show charFreqAux m (x :: xs) = charFreqAux (chFreqUpd m x) xs from by
        simp [charFreqAux, hx]]
      rw [ih (chFreqUpd m x), lookup_chFreqUpd_ne m x ' ' (fun h => hx h.symm)]

/-! ### Claim theorems -/

/-- Claim C1: for every input string `s`, `analyzeString(s).is_palindrome`
is true if and only if the cleaned string (trimmed, non-alphanumerics
removed, lowercased) is non-empty and equal to its own reverse; in
particular the empty string and an all-punctuation string are not
palindromes while a classical mixed-case punctuated palindrome is. -/
theorem claim_C1 :
    (∀ s : Str,
      (analyzeString s).is_palindrome = true ↔
        (((jsTrim s).filter isAlnumAscii).map Char.toLower ≠ [] ∧
          ((jsTrim s).filter isAlnumAscii).map Char.toLower =
            (((jsTrim s).filter isAlnumAscii).map Char.toLower).reverse)) ∧
    (analyzeString ("".data)).is_palindrome = false ∧
    (analyzeString ("!!!".data)).is_palindrome = false ∧
    (analyzeString ("A man, a plan, a canal: Panama".data)).is_palindrome = true := by
  refine ⟨?_, by decide, by decide, by decide⟩
  intro s
  show (decide (0 < (((jsTrim s).filter isAlnumAscii).map Char.toLower).length) &&
      (((jsTrim s).filter isAlnumAscii).map Char.toLower ==
        (((jsTrim s).filter isAlnumAscii).map Char.toLower).reverse)) = true ↔ _
  simp [List.length_pos]

/-- Claim C2: `analyzeString` depends only on the trimmed input — every
field of `analyzeString s` equals the corresponding field of
`analyzeString (trim s)` — repeated calls agree, and in particular the
content hash of `" madam "` equals the content hash of `"madam"`. -/
theorem claim_C2 :
    (∀ s : Str, analyzeString s = analyzeString (jsTrim s)) ∧
    (∀ s : Str, analyzeString s = analyzeString s) ∧
    (analyzeString (" madam ".data)).sha256_hash =
      (analyzeString ("madam".data)).sha256_hash := by
  have key : ∀ s : Str, analyzeString s = analyzeString (jsTrim s) := by
    intro s
    unfold analyzeString
    rw [jsTrim_idem]
  refine ⟨key, fun _ => rfl, ?_⟩
  rw [key (" madam ".data), show jsTrim (" madam ".data) = ("madam".data) from by decide]

/-- Claim C3: the frequency map of `analyzeString s` sends every character
of the lowercased trimmed input other than the space character to its exact
occurrence count, has no entry for the space character or for any character
absent from the input, and does count other whitespace such as tab; in
particular `analyze("a a")` yields exactly `{a: 2}` and `analyze("a\tb")`
has a tab entry. -/
theorem claim_C3 :
    (∀ s : Str, ∀ c : Char, c ∈ (jsTrim s).map Char.toLower → c ≠ ' ' →
      ((analyzeString s).character_frequency_map).lookup c =
        some (((jsTrim s).map Char.toLower).count c)) ∧
    (∀ s : Str, ((analyzeString s).character_frequency_map).lookup ' ' = none) ∧
    (∀ s : Str, ∀ c : Char, c ∉ (jsTrim s).map Char.toLower →
      ((analyzeString s).character_frequency_map).lookup c = none) ∧
    (analyzeString ("a a".data)).character_frequency_map = [('a', 2)] ∧
    ((analyzeString ("a\tb".data)).character_frequency_map).lookup '\t' = some 1 := by
  have hspace : ∀ s : Str,
      ((analyzeString s).character_frequency_map).lookup ' ' = none := by
    intro s
    show (charFreqMap ((jsTrim s).map Char.toLower)).lookup ' ' = none
    rw [charFreqMap, charFreqAux_lookup_space]
    rfl
  refine ⟨?_, hspace, ?_, by decide, by decide⟩
  · intro s c hc hcs
    show (charFreqMap ((jsTrim s).map Char.toLower)).lookup c = _
    rw [charFreqMap, charFreqAux_lookup ((jsTrim s).map Char.toLower) [] c hcs]
    simp [hc]
  · intro s c hc
    by_cases hcs : c = ' '
    · subst hcs
      exact hspace s
    · show (charFreqMap ((jsTrim s).map Char.toLower)).lookup c = none
      rw [charFreqMap, charFreqAux_lookup ((jsTrim s).map Char.toLower) [] c hcs]
      simp [hc]

/-- Witness for C3 at a concrete input: the count of `a` in `"a a"`. -/
theorem claim_C3_witness :
    ((analyzeString ("a a".data)).character_frequency_map).lookup 'a' =
      some ((((jsTrim ("a a".data)).map Char.toLower)).count 'a') :=
  claim_C3.1 ("a a".data) 'a' (by decide) (by decide)

/-! ### Case-folding and key-count lemmas -/

theorem toNat_ofNat_small {m : Nat} (h : m < 55296) : (Char.ofNat m).toNat = m := by
  unfold Char.ofNat
  rw [dif_pos (Or.inl h)]
  rfl

theorem wsCode_letter {n : Nat} (h1 : 65 ≤ n) (h2 : n ≤ 122) : wsCode n = false := by
  simp only [wsCode, Bool.or_eq_false_iff, beq_eq_false_iff_ne, Ne,
    Bool.and_eq_false_iff, decide_eq_false_iff_not, not_le]
  omega

theorem toLower_ws (d : Char) : jsWhitespace (Char.toLower d) = jsWhitespace d := by
  unfold Char.toLower
  by_cases h : d.toNat ≥ 65 ∧ d.toNat ≤ 90
  · rw [if_pos h]
    show wsCode (Char.ofNat (d.toNat + 32)).toNat = wsCode d.toNat
    rw [toNat_ofNat_small (by omega)]
    rw [wsCode_letter (by omega) (by omega), wsCode_letter (by omega) (by omega)]
  · rw [if_neg h]

theorem toLower_eq_self_of_ws {d : Char} (hw : jsWhitespace d = true) :
    Char.toLower d = d := by
  unfold Char.toLower
  by_cases h : d.toNat ≥ 65 ∧ d.toNat ≤ 90
  · have := wsCode_letter (n := d.toNat) (by omega) (by omega)
    rw [show jsWhitespace d = wsCode d.toNat from rfl] at hw
    rw [this] at hw
    exact absurd hw (by simp)
  · rw [if_neg h]

theorem mem_keys_iff_lookup (m : List (Char × Nat)) (c : Char) :
    c ∈ m.map Prod.fst ↔ m.lookup c ≠ none := by
  induction m with
  | nil => simp [List.lookup]
  | cons kv t ih =>
    obtain ⟨k, v⟩ := kv
    by_cases h : c = k
    · subst h
      simp [List.lookup]
    · simp [List.lookup, beq_false_of_ne h, h, ih]

theorem chFreqUpd_keys (m : List (Char × Nat)) (c : Char) :
    (chFreqUpd m c).map Prod.fst =
      if (m.lookup c).isSome then m.map Prod.fst else m.map Prod.fst ++ [c] := by
  induction m with
  | nil => simp [chFreqUpd, List.lookup]
  | cons kv t ih =>
    obtain ⟨k, v⟩ := kv
    by_cases h : k = c
    · subst h
      simp [chFreqUpd, List.lookup]
    · have hck : (c == k) = false := beq_false_of_ne (Ne.symm h)
      have hlk : List.lookup c ((k, v) :: t) = List.lookup c t := by
        simp [List.lookup, hck]
      rw [show chFreqUpd ((k, v) :: t) c = (k, v) :: chFreqUpd t c from by
        simp [chFreqUpd, h]]
      rw [List.map_cons, List.map_cons, ih, hlk]
      by_cases h2 : (t.lookup c).isSome <;> simp [h2]

theorem charFreqAux_keys_nodup (L : Str) : ∀ m : List (Char × Nat),
    (m.map Prod.fst).Nodup → ((charFreqAux m L).map Prod.fst).Nodup := by
  induction L with
  | nil => intro m h; exact h
  | cons x xs ih =>
    intro m h
    by_cases hx : x = ' '
    · subst hx
      rw [show charFreqAux m (' ' :: xs) = charFreqAux m xs from by simp [charFreqAux]]
      exact ih m h
    · rw [show charFreqAux m (x :: xs) = charFreqAux (chFreqUpd m x) xs from by
        simp [charFreqAux, hx]]
      refine ih _ ?_
      rw [chFreqUpd_keys]
      by_cases h2 : (m.lookup x).isSome
      · simp [h2, h]
      · rw [if_neg h2, List.nodup_append]
        refine ⟨h, List.nodup_singleton x, ?_⟩
        intro a ha hax
        rw [List.mem_singleton] at hax
        subst hax
        exact h2 (Option.ne_none_iff_isSome.mp ((mem_keys_iff_lookup m a).mp ha))

theorem charFreqMap_keys_mem (L : Str) (c : Char) :
    c ∈ (charFreqMap L).map Prod.fst ↔ c ∈ L ∧ c ≠ ' ' := by
  rw [mem_keys_iff_lookup]
  by_cases hc : c = ' '
  · subst hc
    rw [charFreqMap, charFreqAux_lookup_space]
    simp [List.lookup]
  · rw [charFreqMap, charFreqAux_lookup L [] c hc]
    by_cases hmem : c ∈ L <;> simp [hmem, hc, List.lookup]

/-- Claim C10 (implicit): when the trimmed input contains no whitespace
other than literal spaces, `unique_characters` equals the number of keys of
the frequency map; when it contains other whitespace (tab, newline, ...),
those characters are frequency-map keys but are stripped from
`unique_characters`, which is then strictly smaller. -/
theorem claim_C10 : ∀ s : Str,
    ((∀ c ∈ jsTrim s, jsWhitespace c = true → c = ' ') →
      (analyzeString s).unique_characters =
        (analyzeString s).character_frequency_map.length) ∧
    ((∃ c ∈ jsTrim s, jsWhitespace c = true ∧ c ≠ ' ') →
      (analyzeString s).unique_characters <
        (analyzeString s).character_frequency_map.length) := by
  intro s
  have hU : (analyzeString s).unique_characters =
      ((((jsTrim s).map Char.toLower).filter (fun c => !(jsWhitespace c))).dedup).length := rfl
  have hF : (analyzeString s).character_frequency_map =
      charFreqMap ((jsTrim s).map Char.toLower) := rfl
  have hnodup : ((charFreqMap ((jsTrim s).map Char.toLower)).map Prod.fst).Nodup :=
    charFreqAux_keys_nodup _ [] (by simp)
  have hlen : (charFreqMap ((jsTrim s).map Char.toLower)).length =
      ((charFreqMap ((jsTrim s).map Char.toLower)).map Prod.fst).toFinset.card := by
    rw [List.card_toFinset, List.Nodup.dedup hnodup, List.length_map]
  have hulen : (analyzeString s).unique_characters =
      ((((jsTrim s).map Char.toLower).filter (fun c => !(jsWhitespace c)))).toFinset.card := by
    rw [hU, List.card_toFinset]
  constructor
  · intro hws
    have hset : ((((jsTrim s).map Char.toLower).filter (fun c => !(jsWhitespace c)))).toFinset =
        ((charFreqMap ((jsTrim s).map Char.toLower)).map Prod.fst).toFinset := by
      ext c
      simp only [List.mem_toFinset, List.mem_filter, charFreqMap_keys_mem]
      constructor
      · rintro ⟨h1, h2⟩
        refine ⟨h1, fun he => ?_⟩
        subst he
        exact absurd h2 (by decide)
      · rintro ⟨h1, h2⟩
        refine ⟨h1, ?_⟩
        by_cases hw : jsWhitespace c = true
        · obtain ⟨d, hd, rfl⟩ := List.mem_map.mp h1
          rw [toLower_ws] at hw
          exact absurd (by rw [hws d hd hw]; rfl) h2
        · simp [Bool.not_eq_true] at hw
          simp [hw]
    rw [hulen, hF, hlen, hset]
  · rintro ⟨d, hd, hwd, hdne⟩
    have hdL : d ∈ (jsTrim s).map Char.toLower :=
      List.mem_map.mpr ⟨d, hd, toLower_eq_self_of_ws hwd⟩
    have hsub : ((((jsTrim s).map Char.toLower).filter (fun c => !(jsWhitespace c)))).toFinset ⊂
        ((charFreqMap ((jsTrim s).map Char.toLower)).map Prod.fst).toFinset := by
      constructor
      · intro c hc
        simp only [List.mem_toFinset, List.mem_filter] at hc
        simp only [List.mem_toFinset, charFreqMap_keys_mem]
        refine ⟨hc.1, fun he => ?_⟩
        have h3 := hc.2
        subst he
        exact absurd h3 (by decide)
      · intro hcon
        have hdmem : d ∈ ((charFreqMap ((jsTrim s).map Char.toLower)).map Prod.fst).toFinset := by
          simp only [List.mem_toFinset, charFreqMap_keys_mem]
          exact ⟨hdL, hdne⟩
        have := hcon hdmem
        simp only [List.mem_toFinset, List.mem_filter] at this
        rw [hwd] at this
        simp at this
    rw [hulen, hF, hlen]
    exact Finset.card_lt_card hsub

/-- Witness for C10: `"a b"` has only space whitespace, so the two counts
agree; `"a<tab>b"` contains a tab, so `unique_characters` is strictly
smaller than the number of frequency-map keys. -/
theorem claim_C10_witness :
    ((analyzeString ("a b".data)).unique_characters =
      (analyzeString ("a b".data)).character_frequency_map.length) ∧
    ((analyzeString ("a\tb".data)).unique_characters <
      (analyzeString ("a\tb".data)).character_frequency_map.length) :=
  ⟨(claim_C10 ("a b".data)).1 (by decide), (claim_C10 ("a\tb".data)).2 (by decide)⟩

/-! ### Translator rule-field lemmas -/

theorem rulePalindrome_min (q : Str) (f : FilterSet) :
    (rulePalindrome q f).min_length = f.min_length := by
  unfold rulePalindrome; split <;> rfl

theorem ruleWords1_min (q : Str) (f : FilterSet) :
    (ruleWords1 q f).min_length = f.min_length := by
  unfold ruleWords1; split <;> rfl

theorem ruleWords2_min (q : Str) (f : FilterSet) :
    (ruleWords2 q f).min_length = f.min_length := by
  unfold ruleWords2; split <;> rfl

theorem ruleWords3_min (q : Str) (f : FilterSet) :
    (ruleWords3 q f).min_length = f.min_length := by
  unfold ruleWords3; split <;> rfl

theorem ruleNumWords_min (q : Str) (f : FilterSet) :
    (ruleNumWords q f).min_length = f.min_length := by
  unfold ruleNumWords; split <;> rfl

theorem ruleShorter_min (q : Str) (f : FilterSet) :
    (ruleShorter q f).min_length = f.min_length := by
  unfold ruleShorter; split <;> rfl

theorem ruleAtMost_min (q : Str) (f : FilterSet) :
    (ruleAtMost q f).min_length = f.min_length := by
  unfold ruleAtMost; split <;> rfl

theorem ruleLessThan_min (q : Str) (f : FilterSet) :
    (ruleLessThan q f).min_length = f.min_length := by
  unfold ruleLessThan; split <;> rfl

theorem ruleCharMatch_min (q : Str) (f : FilterSet) :
    (ruleCharMatch q f).min_length = f.min_length := by
  unfold ruleCharMatch; split <;> rfl

theorem ruleVowel_min (q : Str) (f : FilterSet) :
    (ruleVowel q f).min_length = f.min_length := by
  unfold ruleVowel; split <;> rfl

theorem ruleConsonant_min (q : Str) (f : FilterSet) :
    (ruleConsonant q f).min_length = f.min_length := by
  unfold ruleConsonant; split <;> rfl

theorem ruleMoreThan_min_some (q : Str) (f : FilterSet) (d : Str)
    (h : findKeyNum ("more than ".data) q = some d) :
    (ruleMoreThan q f).min_length =
      some (jsNumToString (jsAdd1 (parseIntDigits d))) := by
  unfold ruleMoreThan; rw [h]

theorem ruleBetween_min_none (q : Str) (f : FilterSet) (h : matchBetween q = none) :
    (ruleBetween q f).min_length = f.min_length := by
  unfold ruleBetween; rw [h]

theorem rulePalindrome_wc (q : Str) (f : FilterSet) :
    (rulePalindrome q f).word_count = f.word_count := by
  unfold rulePalindrome; split <;> rfl

theorem ruleLonger_wc (q : Str) (f : FilterSet) :
    (ruleLonger q f).word_count = f.word_count := by
  unfold ruleLonger; split <;> rfl

theorem ruleShorter_wc (q : Str) (f : FilterSet) :
    (ruleShorter q f).word_count = f.word_count := by
  unfold ruleShorter; split <;> rfl

theorem ruleAtLeast_wc (q : Str) (f : FilterSet) :
    (ruleAtLeast q f).word_count = f.word_count := by
  unfold ruleAtLeast; split <;> rfl

theorem ruleAtMost_wc (q : Str) (f : FilterSet) :
    (ruleAtMost q f).word_count = f.word_count := by
  unfold ruleAtMost; split <;> rfl

theorem ruleMoreThan_wc (q : Str) (f : FilterSet) :
    (ruleMoreThan q f).word_count = f.word_count := by
  unfold ruleMoreThan; split <;> rfl

theorem ruleLessThan_wc (q : Str) (f : FilterSet) :
    (ruleLessThan q f).word_count = f.word_count := by
  unfold ruleLessThan; split <;> rfl

theorem ruleBetween_wc (q : Str) (f : FilterSet) :
    (ruleBetween q f).word_count = f.word_count := by
  unfold ruleBetween; split <;> rfl

theorem ruleCharMatch_wc (q : Str) (f : FilterSet) :
    (ruleCharMatch q f).word_count = f.word_count := by
  unfold ruleCharMatch; split <;> rfl

theorem ruleVowel_wc (q : Str) (f : FilterSet) :
    (ruleVowel q f).word_count = f.word_count := by
  unfold ruleVowel; split <;> rfl

theorem ruleConsonant_wc (q : Str) (f : FilterSet) :
    (ruleConsonant q f).word_count = f.word_count := by
  unfold ruleConsonant; split <;> rfl

theorem ruleNumWords_wc_some (q : Str) (f : FilterSet) (d : Str)
    (h : matchNumWords q = some d) :
    (ruleNumWords q f).word_count = some d := by
  unfold ruleNumWords; rw [h]

/-! ### Digit-string lemmas for C5 -/


theorem takeDigits_all (l : Str) : (takeDigits l).all isDigitAscii = true := by
  induction l with
  | nil => rfl
  | cons c rest ih =>
    unfold takeDigits at ih ⊢
    rw [List.takeWhile_cons]
    by_cases h : isDigitAscii c
    · simp [h, ih]
    · simp [h]

theorem isDigitStr_of_nonempty_digits {l : Str} (h1 : l.isEmpty = false)
    (h2 : l.all isDigitAscii = true) : isDigitStr l = true := by
  unfold isDigitStr
  rw [h1, h2]
  rfl

theorem findKeyNum_digits (key : Str) (q : Str) (d : Str)
    (h : findKeyNum key q = some d) : isDigitStr d = true := by
  induction q with
  | nil => exact absurd h (by simp [findKeyNum])
  | cons c rest ih =>
    unfold findKeyNum at h
    by_cases hp : key.isPrefixOf (c :: rest)
    · rw [if_pos hp] at h
      by_cases he : (takeDigits ((c :: rest).drop key.length)).isEmpty
      · rw [if_pos he] at h
        rw [Option.none_orElse] at h
        exact ih h
      · rw [if_neg he, Option.some_orElse] at h
        cases h
        exact isDigitStr_of_nonempty_digits (Bool.not_eq_true _ ▸ he) (takeDigits_all _)
    · rw [if_neg hp, Option.none_orElse] at h
      exact ih h

theorem matchBetween_digits (q : Str) (d1 d2 : Str)
    (h : matchBetween q = some (d1, d2)) :
    isDigitStr d1 = true ∧ isDigitStr d2 = true := by
  induction q with
  | nil => exact absurd h (by simp [matchBetween])
  | cons c rest ih =>
    unfold matchBetween at h
    by_cases hp : ("between ".data).isPrefixOf (c :: rest)
    · rw [if_pos hp] at h
      by_cases h1 : (takeDigits ((c :: rest).drop 8)).isEmpty
      · rw [if_pos h1, Option.none_orElse] at h
        exact ih h
      · rw [if_neg h1] at h
        by_cases h2 : (" and ".data).isPrefixOf
            (((c :: rest).drop 8).drop (takeDigits ((c :: rest).drop 8)).length)
        · rw [if_pos h2] at h
          by_cases h3 : (takeDigits ((((c :: rest).drop 8).drop
              (takeDigits ((c :: rest).drop 8)).length).drop 5)).isEmpty
          · rw [if_pos h3, Option.none_orElse] at h
            exact ih h
          · rw [if_neg h3, Option.some_orElse] at h
            cases h
            exact ⟨isDigitStr_of_nonempty_digits (Bool.not_eq_true _ ▸ h1) (takeDigits_all _),
              isDigitStr_of_nonempty_digits (Bool.not_eq_true _ ▸ h3) (takeDigits_all _)⟩
        · rw [if_neg h2, Option.none_orElse] at h
          exact ih h
    · rw [if_neg hp, Option.none_orElse] at h
      exact ih h

theorem natPrintAux_all (fuel : Nat) : ∀ n : Nat,
    (natPrintAux fuel n).all isDigitAscii = true := by
  induction fuel with
  | zero => intro n; rfl
  | succ k ih =>
    intro n
    have hd : isDigitAscii (Char.ofNat (48 + n % 10)) = true := by
      unfold isDigitAscii
      rw [toNat_ofNat_small (by omega)]
      have := Nat.mod_lt n (show 0 < 10 from by omega)
      simp
      omega
    unfold natPrintAux
    by_cases h : n < 10
    · simp [h, hd]
    · simp [h, ih (n / 10), hd]

theorem natPrint_digits (n : Nat) : isDigitStr (natPrint n) = true := by
  refine isDigitStr_of_nonempty_digits ?_ (natPrintAux_all _ _)
  unfold natPrint natPrintAux
  by_cases h : n < 10
  · simp [h]
  · rw [if_neg h]
    cases natPrintAux n (n / 10) <;> simp

theorem jsNumStr_of_digit {l : Str} (h : isDigitStr l = true) : jsNumStr l = true := by
  unfold jsNumStr
  rw [h]
  rfl

theorem roundNat_small {v : Nat} (h : v < 9007199254740992) :
    roundNat v = .fin (v : Int) := by
  unfold roundNat
  rw [if_pos h]

theorem ifJsNumShape (c : Prop) [Decidable c] (x : Nat) :
    (if c then JsNum.inf else JsNum.fin (x : Int)) = JsNum.inf ∨
      ∃ w : Nat, (if c then JsNum.inf else JsNum.fin (x : Int)) = JsNum.fin (w : Int) := by
  split
  · left
    rfl
  · right
    exact ⟨x, rfl⟩

/-- `roundNat` only produces infinity or a non-negative finite value. -/
theorem roundNat_shape (v : Nat) :
    roundNat v = .inf ∨ ∃ w : Nat, roundNat v = .fin (w : Int) := by
  unfold roundNat
  by_cases h : v < 9007199254740992
  · right
    exact ⟨v, by rw [if_pos h]⟩
  · rw [if_neg h]
    dsimp only
    exact ifJsNumShape _ _

theorem jsAdd1_fin_nat (w : Nat) : jsAdd1 (.fin (w : Int)) = roundNat (w + 1) := by
  simp only [jsAdd1]
  rw [if_neg (by omega)]
  rw [show ((w : Int) + 1).toNat = w + 1 from by omega]

theorem jsSub1_fin_succ (n : Nat) : jsSub1 (.fin ((n + 1 : Nat) : Int)) = roundNat n := by
  simp only [jsSub1]
  rw [if_neg (by omega)]
  rw [show (((n + 1 : Nat) : Int) - 1).toNat = n from by omega]

theorem jsNatToString_small {v : Nat} (h : v < 9007199254740992) :
    jsNatToString v = natPrint v := by
  unfold jsNatToString
  rw [if_pos h]

theorem jsNumToString_fin_nat (w : Nat) : jsNumToString (.fin (w : Int)) = jsNatToString w := by
  simp only [jsNumToString]
  rw [if_neg (by omega), Int.natAbs_ofNat]

theorem jsNumStr_inf : jsNumStr (jsNumToString .inf) = true := by decide

/-- Every output of `Number::toString` on a non-negative integer double is
a digit string or an exponential-notation numeral. -/
theorem jsNatToString_numStr (w : Nat) : jsNumStr (jsNatToString w) = true := by
  have hexp : ∀ (X Y : Str), jsNumStr (X ++ 'e' :: Y) = true := by
    intro X Y
    simp [jsNumStr, List.any_append]
  unfold jsNatToString
  by_cases h : w < 9007199254740992
  · rw [if_pos h]
    exact jsNumStr_of_digit (natPrint_digits w)
  · rw [if_neg h]
    dsimp only
    split
    · exact jsNumStr_of_digit (natPrint_digits _)
    · exact hexp _ _

/-- The `min_length` value stored by "longer than"/"more than" is the
string of a non-negative number. -/
theorem minVal_numStr (d : Str) :
    jsNumStr (jsNumToString (jsAdd1 (parseIntDigits d))) = true := by
  unfold parseIntDigits
  rcases roundNat_shape (digitsToNat d) with h | ⟨w, h⟩
  · rw [h]
    exact jsNumStr_inf
  · rw [h, jsAdd1_fin_nat]
    rcases roundNat_shape (w + 1) with h2 | ⟨w2, h2⟩
    · rw [h2]
      exact jsNumStr_inf
    · rw [h2, jsNumToString_fin_nat]
      exact jsNatToString_numStr w2

/-- The `max_length` value stored by "shorter than"/"less than" is the
string of a non-negative number or exactly `"-1"`. -/
theorem maxVal_numStr (d : Str) :
    jsNumStr (jsNumToString (jsSub1 (parseIntDigits d))) = true ∨
      jsNumToString (jsSub1 (parseIntDigits d)) = ("-1".data) := by
  unfold parseIntDigits
  rcases roundNat_shape (digitsToNat d) with h | ⟨w, h⟩
  · left
    rw [h]
    exact jsNumStr_inf
  · rw [h]
    cases w with
    | zero => right; decide
    | succ n =>
      left
      rw [jsSub1_fin_succ]
      rcases roundNat_shape n with h2 | ⟨w2, h2⟩
      · rw [h2]
        exact jsNumStr_inf
      · rw [h2, jsNumToString_fin_nat]
        exact jsNatToString_numStr w2

/-- Below `2^53` the double round-trip is exact: parse, increment and print
agree with exact integer arithmetic. -/
theorem jsMinExact {d : Str} (h : digitsToNat d + 1 < 9007199254740992) :
    jsNumToString (jsAdd1 (parseIntDigits d)) = natPrint (digitsToNat d + 1) := by
  unfold parseIntDigits
  rw [roundNat_small (by omega), jsAdd1_fin_nat, roundNat_small h,
    jsNumToString_fin_nat, jsNatToString_small h]


theorem goodLen_of_eq {f g : FilterSet} (hmin : g.min_length = f.min_length)
    (hmax : g.max_length = f.max_length) (h : goodLen f) : goodLen g :=
  ⟨fun v hv => h.1 v (hmin ▸ hv), fun v hv => h.2 v (hmax ▸ hv)⟩

theorem goodLen_palindrome (q : Str) (f : FilterSet) (h : goodLen f) :
    goodLen (rulePalindrome q f) := by
  unfold rulePalindrome
  split
  · exact goodLen_of_eq rfl rfl h
  · exact h

theorem goodLen_words1 (q : Str) (f : FilterSet) (h : goodLen f) :
    goodLen (ruleWords1 q f) := by
  unfold ruleWords1
  split
  · exact goodLen_of_eq rfl rfl h
  · exact h

theorem goodLen_words2 (q : Str) (f : FilterSet) (h : goodLen f) :
    goodLen (ruleWords2 q f) := by
  unfold ruleWords2
  split
  · exact goodLen_of_eq rfl rfl h
  · exact h

theorem goodLen_words3 (q : Str) (f : FilterSet) (h : goodLen f) :
    goodLen (ruleWords3 q f) := by
  unfold ruleWords3
  split
  · exact goodLen_of_eq rfl rfl h
  · exact h

theorem goodLen_numWords (q : Str) (f : FilterSet) (h : goodLen f) :
    goodLen (ruleNumWords q f) := by
  unfold ruleNumWords
  split
  · exact goodLen_of_eq rfl rfl h
  · exact h

theorem goodLen_longer (q : Str) (f : FilterSet) (h : goodLen f) :
    goodLen (ruleLonger q f) := by
  unfold ruleLonger
  split
  · constructor
    · intro v hv
      cases hv
      exact minVal_numStr _
    · exact fun v hv => h.2 v hv
  · exact h

theorem goodLen_shorter (q : Str) (f : FilterSet) (h : goodLen f) :
    goodLen (ruleShorter q f) := by
  unfold ruleShorter
  split
  · constructor
    · exact fun v hv => h.1 v hv
    · intro v hv
      cases hv
      exact maxVal_numStr _
  · exact h

theorem goodLen_atLeast (q : Str) (f : FilterSet) (h : goodLen f) :
    goodLen (ruleAtLeast q f) := by
  unfold ruleAtLeast
  split
  · next d hd =>
    constructor
    · intro v hv
      cases hv
      exact jsNumStr_of_digit (findKeyNum_digits _ _ _ hd)
    · exact fun v hv => h.2 v hv
  · exact h

theorem goodLen_atMost (q : Str) (f : FilterSet) (h : goodLen f) :
    goodLen (ruleAtMost q f) := by
  unfold ruleAtMost
  split
  · next d hd =>
    constructor
    · exact fun v hv => h.1 v hv
    · intro v hv
      cases hv
      exact Or.inl (jsNumStr_of_digit (findKeyNum_digits _ _ _ hd))
  · exact h

theorem goodLen_moreThan (q : Str) (f : FilterSet) (h : goodLen f) :
    goodLen (ruleMoreThan q f) := by
  unfold ruleMoreThan
  split
  · constructor
    · intro v hv
      cases hv
      exact minVal_numStr _
    · exact fun v hv => h.2 v hv
  · exact h

theorem goodLen_lessThan (q : Str) (f : FilterSet) (h : goodLen f) :
    goodLen (ruleLessThan q f) := by
  unfold ruleLessThan
  split
  · constructor
    · exact fun v hv => h.1 v hv
    · intro v hv
      cases hv
      exact maxVal_numStr _
  · exact h

theorem goodLen_between (q : Str) (f : FilterSet) (h : goodLen f) :
    goodLen (ruleBetween q f) := by
  unfold ruleBetween
  split
  · next p hp =>
    constructor
    · intro v hv
      cases hv
      exact jsNumStr_of_digit (matchBetween_digits _ _ _ (by rw [hp])).1
    · intro v hv
      cases hv
      exact Or.inl (jsNumStr_of_digit (matchBetween_digits _ _ _ (by rw [hp])).2)
  · exact h

theorem goodLen_charMatch (q : Str) (f : FilterSet) (h : goodLen f) :
    goodLen (ruleCharMatch q f) := by
  unfold ruleCharMatch
  split
  · exact goodLen_of_eq rfl rfl h
  · exact h

theorem goodLen_vowel (q : Str) (f : FilterSet) (h : goodLen f) :
    goodLen (ruleVowel q f) := by
  unfold ruleVowel
  split
  · exact goodLen_of_eq rfl rfl h
  · exact h

theorem goodLen_consonant (q : Str) (f : FilterSet) (h : goodLen f) :
    goodLen (ruleConsonant q f) := by
  unfold ruleConsonant
  split
  · exact goodLen_of_eq rfl rfl h
  · exact h

/-- Claim C4 counterexample: the source applies "at least" (line 85) before
"more than" (line 97), so in a query containing both, "more than N" wins:
the resulting `min_length` is `"6"`, not the `"7"` demanded by the claim. -/
theorem claim_C4_counterexample :
    (parseNaturalLanguageQuery ("more than 5 and at least 7".data)).min_length =
      some ("6".data) ∧
    (parseNaturalLanguageQuery ("more than 5 and at least 7".data)).min_length ≠
      some ("7".data) := ⟨by decide, by decide⟩

/-- Claim C4 (amended): the translator applies "longer than"/"shorter than"
before the inclusive rules, but "more than"/"less than" after them, so for
every query containing "more than N" (and no "between ... and ..." range)
with `N + 1 < 2^53` — the range where IEEE-754 double arithmetic on the
parsed value is exact — the resulting `min_length` is the numeral of
`N + 1`: the exclusive "more than" rule, being evaluated later, overwrites
an "at least" value, not the other way around.  (Beyond `2^53` the
program's `parseInt`, `+ 1` and `toString` round through doubles, as the
`jsNumToString (jsAdd1 (parseIntDigits d))` value stored by the rule
records.) -/
theorem claim_C4_amended : ∀ q d : Str,
    findKeyNum ("more than ".data) (q.map Char.toLower) = some d →
    matchBetween (q.map Char.toLower) = none →
    digitsToNat d + 1 < 9007199254740992 →
    (parseNaturalLanguageQuery q).min_length = some (natPrint (digitsToNat d + 1)) := by
  intro q d hm hb hsmall
  simp only [parseNaturalLanguageQuery]
  rw [ruleConsonant_min, ruleVowel_min, ruleCharMatch_min,
    ruleBetween_min_none _ _ hb, ruleLessThan_min, ruleMoreThan_min_some _ _ _ hm,
    jsMinExact hsmall]

/-- Witness for the amended C4 at the concrete two-bound query. -/
theorem claim_C4_witness :
    (parseNaturalLanguageQuery ("more than 5 and at least 7".data)).min_length =
      some (natPrint (digitsToNat ("5".data) + 1)) :=
  claim_C4_amended ("more than 5 and at least 7".data) ("5".data) (by decide) (by decide)
    (by decide)

/-- Claim C7: the numeric word-count pattern `<digits> words?` is evaluated
after the phrased rules and overwrites them whenever it matches; in
particular `"single word, 3 words"` translates to exactly
`{word_count: "3"}`. -/
theorem claim_C7 :
    (∀ q d : Str, matchNumWords (q.map Char.toLower) = some d →
      (parseNaturalLanguageQuery q).word_count = some d) ∧
    parseNaturalLanguageQuery ("single word, 3 words".data) =
      ⟨none, some ("3".data), none, none, none⟩ := by
  refine ⟨?_, by decide⟩
  intro q d h
  simp only [parseNaturalLanguageQuery]
  rw [ruleConsonant_wc, ruleVowel_wc, ruleCharMatch_wc, ruleBetween_wc,
    ruleLessThan_wc, ruleMoreThan_wc, ruleAtMost_wc, ruleAtLeast_wc,
    ruleShorter_wc, ruleLonger_wc, ruleNumWords_wc_some _ _ _ h]

/-- Witness for C7 at the concrete override query. -/
theorem claim_C7_witness :
    (parseNaturalLanguageQuery ("single word, 3 words".data)).word_count =
      some ("3".data) :=
  claim_C7.1 ("single word, 3 words".data) ("3".data) (by decide)

/-- Claim C5 counterexample: `"shorter than 0"` produces
`max_length = "-1"`, a negative value, refuting the claim that length
filter values are always non-negative integers. -/
theorem claim_C5_counterexample :
    (parseNaturalLanguageQuery ("shorter than 0".data)).max_length =
      some ("-1".data) ∧
    isDigitStr ("-1".data) = false := ⟨by decide, by decide⟩

/-- Claim C5 (amended): every `min_length` the translator produces is the
string of a non-negative JavaScript number — a digit string, or (for
parsed values whose shortest double representation reaches `10^21`) an
exponential-notation numeral containing the exponent marker, or
`"Infinity"` on double overflow; every `max_length` is such a string or
exactly `"-1"`, the latter arising from "shorter than 0" / "less than 0".
The values are therefore never negative numerals apart from the single
`"-1"` case, but they are not always plain digit strings. -/
theorem claim_C5_amended : ∀ q : Str,
    (∀ v, (parseNaturalLanguageQuery q).min_length = some v → jsNumStr v = true) ∧
    (∀ v, (parseNaturalLanguageQuery q).max_length = some v →
      (jsNumStr v = true ∨ v = ("-1".data))) := by
  intro q
  have h : goodLen (parseNaturalLanguageQuery q) := by
    simp only [parseNaturalLanguageQuery]
    apply goodLen_consonant
    apply goodLen_vowel
    apply goodLen_charMatch
    apply goodLen_between
    apply goodLen_lessThan
    apply goodLen_moreThan
    apply goodLen_atMost
    apply goodLen_atLeast
    apply goodLen_shorter
    apply goodLen_longer
    apply goodLen_numWords
    apply goodLen_words3
    apply goodLen_words2
    apply goodLen_words1
    apply goodLen_palindrome
    exact ⟨fun v hv => (nomatch hv), fun v hv => (nomatch hv)⟩
  exact h

/-- Witness for the amended C5: `"at least 7"` yields `"7"` as
`min_length`, the string of a non-negative number. -/
theorem claim_C5_witness : jsNumStr ("7".data) = true :=
  (claim_C5_amended ("at least 7".data)).1 ("7".data) (by decide)

/-- Claim C8: when no translator rule fires the filter set is empty and the
natural-language endpoint answers with a `ValidationError` (the unparsable
query) without querying the store; `"banana"` is such a query. -/
theorem claim_C8 :
    (∀ (store : List StringRecord) (q : Str),
      filtersIsEmpty (parseNaturalLanguageQuery q) = true →
      filterByNaturalLanguage store (some q) = .error .validation) ∧
    parseNaturalLanguageQuery ("banana".data) = emptyFilters ∧
    (∀ store : List StringRecord,
      filterByNaturalLanguage store (some ("banana".data)) = .error .validation) := by
  have key : ∀ (store : List StringRecord) (q : Str),
      filtersIsEmpty (parseNaturalLanguageQuery q) = true →
      filterByNaturalLanguage store (some q) = .error .validation := by
    intro store q h
    simp only [filterByNaturalLanguage]
    by_cases hq : q.isEmpty
    · rw [if_pos hq]
    · rw [if_neg hq, if_pos h]
  exact ⟨key, by decide, fun store => key store ("banana".data) (by decide)⟩

/-- Witness for C8 on the empty store and the query `"banana"`. -/
theorem claim_C8_witness :
    filterByNaturalLanguage [] (some ("banana".data)) = .error .validation :=
  claim_C8.1 [] ("banana".data) (by decide)


theorem jsTrim_cexLong : jsTrim cexLong = ['a'] := by
  unfold jsTrim cexLong
  rw [show List.dropWhile jsWhitespace ('a' :: List.replicate 10000 ' ')
      = 'a' :: List.replicate 10000 ' ' from by
    rw [List.dropWhile_cons, if_neg (by decide)]]
  rw [List.reverse_cons, List.reverse_replicate]
  rw [List.dropWhile_append_of_pos (by intro a ha; rw [List.eq_of_mem_replicate ha]; decide)]
  rfl

/-- Claim C6 counterexample: the validator checks `value.length > 10000` on
the RAW value, so this value — trimmed length 1, inside the claimed
1..10000 window — is rejected with a `ValidationError`, refuting the
claimed `iff`. -/
theorem claim_C6_counterexample :
    (createStringEndpoint [] (ReqValue.str cexLong)).1 =
      Except.error ErrKind.validation ∧
    1 ≤ (jsTrim cexLong).length ∧ (jsTrim cexLong).length ≤ 10000 := by
  have h2 : cexLong.length = 10001 := by
    rw [show cexLong = 'a' :: List.replicate 10000 ' ' from rfl, List.length_cons,
      List.length_replicate]
  refine ⟨?_, by rw [jsTrim_cexLong]; decide, by rw [jsTrim_cexLong]; decide⟩
  simp only [createStringEndpoint, validateStringInput, jsTrim_cexLong, h2]
  rfl

/-- Claim C6 (amended): the create endpoint proceeds past validation if and
only if the request value is a string whose trimmed length is at least 1
and whose RAW (untrimmed) length is at most 10000; otherwise it fails with
a `ValidationError` before the analyzer or the store is touched. -/
theorem claim_C6_amended : ∀ (store : List StringRecord) (v : ReqValue),
    (createStringEndpoint store v).1 ≠ Except.error ErrKind.validation ↔
      ∃ s : Str, v = ReqValue.str s ∧ 1 ≤ (jsTrim s).length ∧ s.length ≤ 10000 := by
  intro store v
  cases v with
  | missing => simp [createStringEndpoint, validateStringInput]
  | nullv => simp [createStringEndpoint, validateStringInput]
  | nonString => simp [createStringEndpoint, validateStringInput]
  | str s =>
    by_cases h1 : (jsTrim s).length = 0
    · simp only [createStringEndpoint, validateStringInput, if_pos h1]
      constructor
      · intro hcon
        exact absurd rfl hcon
      · rintro ⟨s2, hs2, hb1, _⟩
        cases hs2
        exact absurd hb1 (by omega)
    · by_cases h2 : s.length > 10000
      · simp only [createStringEndpoint, validateStringInput, if_neg h1, if_pos h2]
        constructor
        · intro hcon
          exact absurd rfl hcon
        · rintro ⟨s2, hs2, _, hb2⟩
          cases hs2
          exact absurd hb2 (by omega)
      · have hs : s.isEmpty = false := by
          cases s with
          | nil => exact absurd rfl h1
          | cons a t => rfl
        simp only [createStringEndpoint, validateStringInput, if_neg h1, if_neg h2]
        simp only [createStringCtrl, hs, Bool.false_eq_true, if_false]
        by_cases hex : existsByValue store (jsTrim s)
        · rw [if_pos hex]
          constructor
          · intro _
            exact ⟨s, rfl, by omega, by omega⟩
          · intro _ hcon
            exact absurd hcon (by simp)
        · rw [if_neg hex]
          constructor
          · intro _
            exact ⟨s, rfl, by omega, by omega⟩
          · intro _ hcon
            exact absurd hcon (by simp)


/-- Claim C9: when the existence check by content hash succeeds,
`createString` answers `ConflictError` and leaves the store untouched; the
endpoint preserves store well-formedness on every path, and a well-formed
store holds at most one record per value. -/
theorem claim_C9 :
    (∀ (store : List StringRecord) (s : Str), s ≠ [] →
      existsByValue store (jsTrim s) = true →
      createStringCtrl store (ReqValue.str s) = (Except.error ErrKind.conflict, store)) ∧
    (∀ (store : List StringRecord) (v : ReqValue), WFStore store →
      WFStore (createStringEndpoint store v).2) ∧
    (∀ store : List StringRecord, WFStore store →
      ∀ r1 ∈ store, ∀ r2 ∈ store, r1.value = r2.value → r1 = r2) := by
  refine ⟨?_, ?_, ?_⟩
  · intro store s hs hex
    have hsE : s.isEmpty = false := by
      cases s with
      | nil => exact absurd rfl hs
      | cons a t => rfl
    simp only [createStringCtrl, hsE, Bool.false_eq_true, if_false, if_pos hex]
  · intro store v hwf
    cases v with
    | missing => exact hwf
    | nullv => exact hwf
    | nonString => exact hwf
    | str s =>
      by_cases h1 : (jsTrim s).length = 0
      · simp only [createStringEndpoint, validateStringInput, if_pos h1]
        exact hwf
      · by_cases h2 : s.length > 10000
        · simp only [createStringEndpoint, validateStringInput, if_neg h1, if_pos h2]
          exact hwf
        · have hsE : s.isEmpty = false := by
            cases s with
            | nil => exact absurd rfl h1
            | cons a t => rfl
          simp only [createStringEndpoint, validateStringInput, if_neg h1, if_neg h2,
            createStringCtrl, hsE, Bool.false_eq_true, if_false]
          by_cases hex : existsByValue store (jsTrim s)
          · rw [if_pos hex]
            exact hwf
          · rw [if_neg hex]
            have hid : (analyzeString (jsTrim s)).sha256_hash = sha256hex (jsTrim s) := by
              show sha256hex (jsTrim (jsTrim s)) = sha256hex (jsTrim s)
              rw [jsTrim_idem]
            have hex2 : existsByValue store (jsTrim s) = false := by
              rw [← Bool.not_eq_true]
              exact hex
            have hnotin : ∀ r ∈ store, r.id ≠ sha256hex (jsTrim s) := by
              intro r hr hcon
              rw [existsByValue] at hex2
              have h3 := List.any_eq_false.mp hex2 r hr
              exact h3 (by rw [hcon]; exact beq_self_eq_true _)
            constructor
            · rw [List.map_append, List.nodup_append]
              refine ⟨hwf.1, by simp, ?_⟩
              intro a ha hb
              simp only [List.map_cons, List.map_nil, List.mem_singleton] at hb
              obtain ⟨r, hr, hrid⟩ := List.mem_map.mp ha
              subst hb
              exact hnotin r hr (hrid.trans hid)
            · intro r hr
              rcases List.mem_append.mp hr with h | h
              · exact hwf.2 r h
              · rw [List.mem_singleton] at h
                subst h
                exact hid
  · intro store hwf r1 h1 r2 h2 hval
    have e1 := hwf.2 r1 h1
    have e2 := hwf.2 r2 h2
    have hids : r1.id = r2.id := by rw [e1, e2, hval]
    exact List.inj_on_of_nodup_map hwf.1 h1 h2 hids


/-- Witness for C9: re-submitting `"madam"` against a store that already
holds its record yields a conflict and leaves the store unchanged. -/
theorem claim_C9_witness :
    createStringCtrl [madamRecord] (ReqValue.str ("madam".data)) =
      (Except.error ErrKind.conflict, [madamRecord]) := by
  refine claim_C9.1 [madamRecord] ("madam".data) (by decide) ?_
  rw [show jsTrim ("madam".data) = ("madam".data) from by decide]
  simp [existsByValue, madamRecord]

/-- Witness for C1: the palindrome criterion instantiated at `"madam"`. -/
theorem claim_C1_witness :
    (analyzeString ("madam".data)).is_palindrome = true :=
  (claim_C1.1 ("madam".data)).mpr ⟨by decide, by decide⟩

/-- Witness for C2: the trim-stability equation instantiated at `" madam "`. -/
theorem claim_C2_witness :
    analyzeString (" madam ".data) = analyzeString (jsTrim (" madam ".data)) :=
  claim_C2.1 (" madam ".data)

/-- Witness for the amended C6: `"madam"` passes validation. -/
theorem claim_C6_witness :
    (createStringEndpoint [] (ReqValue.str ("madam".data))).1 ≠
      Except.error ErrKind.validation :=
  (claim_C6_amended [] (ReqValue.str ("madam".data))).mpr
    ⟨("madam".data), rfl, by decide, by decide⟩
